import Mathlib

set_option maxRecDepth 100000

/-!
Verification of the time-accounting engine of the italian-pa-employee-attendance
repository (`src/js/services/TimeCalculator.js`), shallowly embedded in Lean.

Machine integers of the source are modelled as `Int`/`Nat`; JavaScript's
`null` as `Option`; the decimal `hours` field of special-day entries as `ℚ`.
The time/date utility modules (`Validators.js`, `DateUtils.js`) are not among
the provided sources; their functions are modelled from the spec and are
marked as such.
-/

namespace AttendanceEngine

/-- Reads a digit list as a natural number; `none` when empty or not all digits. -/
def digitsToNat (l : List Char) : Option Nat :=
  if !l.isEmpty && l.all Char.isDigit then
    some (l.foldl (fun acc c => acc * 10 + (c.toNat - 48)) 0)
  else none

/-- Modelled from the spec: `parseTime` of the time utilities (the repository's
`Validators.js` is not among the provided sources).  Parses a 24-hour `HH:MM`
string into minutes since midnight and returns `none` (JavaScript `null`) for
malformed input. -/
def parseTimeToMinutes (s : String) : Option Int :=
  match s.data with
  | [h1, h2, c, m1, m2] =>
    if c == ':' && h1.isDigit && h2.isDigit && m1.isDigit && m2.isDigit then
      let h := (h1.toNat - 48) * 10 + (h2.toNat - 48)
      let m := (m1.toNat - 48) * 10 + (m2.toNat - 48)
      if h < 24 && m < 60 then some (60 * h + m) else none
    else none
  | _ => none

/-- Two-digit zero padding, as JavaScript `String.padStart(2, "0")`: values of
three or more digits are rendered unpadded. -/
def pad2 (n : Nat) : String :=
  if n < 100 then String.mk [Nat.digitChar (n / 10), Nat.digitChar (n % 10)]
  else toString n

/-- Modelled from the spec: `formatMinutes` of the time utilities.  Renders a
minute count as sign-prefixed zero-padded `HH:MM`, with
`hours = floor(|m| / 60)` and `mins = |m| mod 60`. -/
def minutesToTime (m : Int) : String :=
  let a := m.natAbs
  (if m < 0 then "-" else "") ++ pad2 (a / 60) ++ ":" ++ pad2 (a % 60)

/-- Modelled from the spec: `parseDateISO` of the calendar helper
(`DateUtils.js` is not among the provided sources).  Splits a `YYYY-MM-DD` key
into its year/month/day integers, as the spec's explicit local-date
construction from separately parsed components. -/
def parseDateISO (s : String) : Option (Nat × Nat × Nat) :=
  match s.data.splitOn '-' with
  | [ys, ms, ds] =>
    match digitsToNat ys, digitsToNat ms, digitsToNat ds with
    | some y, some m, some d => some (y, m, d)
    | _, _, _ => none
  | _ => none

/-- Zeller's congruence: day of week of a civil date, `0` = Saturday up to
`6` = Friday. -/
def zellerDayOfWeek (y m d : Nat) : Nat :=
  let yy := if m ≤ 2 then y - 1 else y
  let mm := if m ≤ 2 then m + 12 else m
  let K := yy % 100
  let J := yy / 100
  (d + 13 * (mm + 1) / 5 + K + K / 4 + J / 4 + 5 * J) % 7

/-- Modelled from the spec: `isFriday` of the calendar helper, a weekday test
on the parsed local date.  A date that failed to parse is not a Friday. -/
def isFriday (date : Option (Nat × Nat × Nat)) : Bool :=
  match date with
  | some (y, m, d) => zellerDayOfWeek y m d == 6
  | none => false

/-- The `type` tags of a time entry: `entrata`/`uscita` are clock-in/clock-out,
`smart`/`assente` the special full-day markers. -/
inductive EntryType where
  | entrata
  | uscita
  | smart
  | assente
deriving DecidableEq, Repr

/-- One recorded event or day-override record `{type, time?, hours?}`. -/
structure Entry where
  type : EntryType
  time : String := ""
  hours : Option ℚ := none
deriving DecidableEq, Repr

/-- `CONFIG.WEEKLY_TARGET_MINUTES`. -/
def WEEKLY_TARGET_MINUTES : Int := 36 * 60

/-- `CONFIG.PAUSE_MINUTES`. -/
def PAUSE_MINUTES : Int := 30

/-- `CONFIG.PAUSE_THRESHOLD_HOURS`. -/
def PAUSE_THRESHOLD_HOURS : Int := 6

/-- `CONFIG.DAILY_TARGET_HOURS` (7h30m). -/
def DAILY_TARGET_HOURS : ℚ := 7.5

/-- `CONFIG.FRIDAY_TARGET_HOURS`. -/
def FRIDAY_TARGET_HOURS : ℚ := 6

/-- Result record of `calculatePairMinutes`. -/
structure PairResult where
  workedMinutes : Int
  hasIncomplete : Bool
  pairCount : Nat
  breakMinutes : Int
deriving DecidableEq, Repr

/-- The clock-in times of a day, in list order
(`entries.filter(e => e.type === 'entrata').map(e => e.time)`). -/
def entrateTimes (entries : List Entry) : List String :=
  (entries.filter (fun e => e.type == EntryType.entrata)).map Entry.time

/-- The clock-out times of a day, in list order. -/
def usciteTimes (entries : List Entry) : List String :=
  (entries.filter (fun e => e.type == EntryType.uscita)).map Entry.time

/-- `calculatePairMinutes` (TimeCalculator.js lines 92-130): pairs the i-th
clock-in with the i-th clock-out, sums the positive worked intervals, flags an
unmatched clock-in, and sums the positive gaps between consecutive pairs. -/
def calculatePairMinutes (entries : List Entry) : PairResult :=
  let entrate := entrateTimes entries
  let uscite := usciteTimes entries
  let pairs := min entrate.length uscite.length
  let workedMinutes := (List.range pairs).foldl
    (fun acc i =>
      match parseTimeToMinutes (entrate.getD i ""), parseTimeToMinutes (uscite.getD i "") with
      | some entrataMinutes, some uscitaMinutes =>
        if 0 < uscitaMinutes - entrataMinutes then acc + (uscitaMinutes - entrataMinutes)
        else acc
      | _, _ => acc) 0
  let breakMinutes := (List.range pairs).foldl
    (fun acc i =>
      if i < pairs - 1 then
        match parseTimeToMinutes (uscite.getD i ""), parseTimeToMinutes (entrate.getD (i + 1) "") with
        | some exitMin, some nextEntryMin =>
          if exitMin < nextEntryMin then acc + (nextEntryMin - exitMin) else acc
        | _, _ => acc
      else acc) 0
  { workedMinutes := workedMinutes
    hasIncomplete := decide (uscite.length < entrate.length)
    pairCount := pairs
    breakMinutes := breakMinutes }

/-- `shouldApplyPause` (lines 138-147).  The source compares
`workedMinutes / 60 > 6` in floating point; over integer minute counts that is
exactly `workedMinutes > 6 * 60`. -/
def shouldApplyPause (workedMinutes : Int) (dateKey : String) : Bool :=
  if isFriday (parseDateISO dateKey) then false
  else decide (60 * PAUSE_THRESHOLD_HOURS < workedMinutes)

/-- JavaScript `Math.round`: half-up rounding toward positive infinity. -/
def jsRound (q : ℚ) : Int := ⌊q + 1 / 2⌋

/-- `hoursToMinutes` (lines 210-212): `Math.round(hours * 60)`. -/
def hoursToMinutes (hours : ℚ) : Int := jsRound (hours * 60)

/-- Result record of `calculateDayHours`.  The empty-day and special-day early
returns of the source omit the last three fields (JavaScript `undefined`),
modelled as `none`. -/
structure DayResult where
  minutes : Int
  formatted : String
  hasIncomplete : Bool
  grossMinutes : Option Int := none
  pauseApplied : Option Bool := none
  breakMinutes : Option Int := none
deriving DecidableEq, Repr

/-- A day consisting of exactly one `smart`/`assente` record
(`entries.length === 1 && (type === 'smart' || type === 'assente')`). -/
def isSpecialDay (entries : List Entry) : Bool :=
  match entries with
  | [e] => e.type == EntryType.smart || e.type == EntryType.assente
  | _ => false

/-- The pause deduction of `calculateDayHours` (lines 58-73): nothing on a
Friday; on other days a threshold-gated flat 30 minutes for at most one pair,
or a top-up of the measured break to 30 minutes for two or more pairs. -/
def dayPauseMinutes (r : PairResult) (dateKey : String) : Int :=
  if isFriday (parseDateISO dateKey) then 0
  else if r.pairCount ≤ 1 then
    if shouldApplyPause r.workedMinutes dateKey then PAUSE_MINUTES else 0
  else if r.breakMinutes < PAUSE_MINUTES then PAUSE_MINUTES - r.breakMinutes
  else 0

/-- `calculateDayHours` (lines 36-85). -/
def calculateDayHours (entries : List Entry) (dateKey : String) : DayResult :=
  match entries with
  | [] => { minutes := 0, formatted := "00:00", hasIncomplete := false }
  | e :: rest =>
    if isSpecialDay (e :: rest) then
      let minutes := jsRound (e.hours.getD 0 * 60)
      { minutes := minutes, formatted := minutesToTime minutes, hasIncomplete := false }
    else
      let r := calculatePairMinutes (e :: rest)
      let pauseMinutes := dayPauseMinutes r dateKey
      let netMinutes := max 0 (r.workedMinutes - pauseMinutes)
      { minutes := netMinutes
        formatted := minutesToTime netMinutes
        hasIncomplete := r.hasIncomplete
        grossMinutes := some r.workedMinutes
        pauseApplied := some (decide (0 < pauseMinutes))
        breakMinutes := some (if 1 < r.pairCount then r.breakMinutes
                              else if 0 < pauseMinutes then PAUSE_MINUTES else 0) }

/-- Result record of `calculateWeekTotal`. -/
structure WeekTotal where
  minutes : Int
  formatted : String
  byDay : List (String × DayResult)
deriving DecidableEq, Repr

/-- `calculateWeekTotal` (lines 154-169): per-day results and their summed net
minutes.  The source's accumulator loop is written as a map and a sum. -/
def calculateWeekTotal (weekEntries : List (String × List Entry)) : WeekTotal :=
  let byDay := weekEntries.map (fun p => (p.1, calculateDayHours p.2 p.1))
  let totalMinutes := (byDay.map (fun p => p.2.minutes)).sum
  { minutes := totalMinutes, formatted := minutesToTime totalMinutes, byDay := byDay }

/-- Result record of `calculateBalance`. -/
structure Balance where
  minutes : Int
  formatted : String
  isPositive : Bool
  isNegative : Bool
  isNeutral : Bool
deriving DecidableEq, Repr

/-- `calculateBalance` (lines 176-187). -/
def calculateBalance (workedMinutes : Int) : Balance :=
  let balanceMinutes := workedMinutes - WEEKLY_TARGET_MINUTES
  let sign := if 0 ≤ balanceMinutes then "+" else ""
  { minutes := balanceMinutes
    formatted := sign ++ minutesToTime balanceMinutes
    isPositive := decide (0 < balanceMinutes)
    isNegative := decide (balanceMinutes < 0)
    isNeutral := balanceMinutes == 0 }

/-- Result record of `calculateRemaining`. -/
structure Remaining where
  minutes : Int
  formatted : String
deriving DecidableEq, Repr

/-- `calculateRemaining` (lines 228-234). -/
def calculateRemaining (workedMinutes : Int) : Remaining :=
  let remaining := max 0 (WEEKLY_TARGET_MINUTES - workedMinutes)
  { minutes := remaining, formatted := minutesToTime remaining }

/-- `formatDeltaMinutes` (lines 315-328). -/
def formatDeltaMinutes (minutes : Int) : String :=
  let sign := if 0 ≤ minutes then "+" else "-"
  let absMinutes := minutes.natAbs
  let hours := absMinutes / 60
  let mins := absMinutes % 60
  if hours == 0 then sign ++ toString mins ++ "min"
  else if mins == 0 then sign ++ toString hours ++ "h"
  else sign ++ toString hours ++ "h " ++ toString mins ++ "m"

/-- `getDailyTarget` (lines 274-278). -/
def getDailyTarget (dateKey : String) : ℚ :=
  if isFriday (parseDateISO dateKey) then FRIDAY_TARGET_HOURS else DAILY_TARGET_HOURS

/-- Result record of `calculateDayDelta`. -/
structure Delta where
  minutes : Int
  formatted : String
  isPositive : Bool
  isNegative : Bool
  isNeutral : Bool
  hasIncomplete : Bool
deriving DecidableEq, Repr

/-- `calculateDayDelta` (lines 286-308). -/
def calculateDayDelta (entries : List Entry) (dateKey : String) : Option Delta :=
  match entries with
  | [] => none
  | e :: rest =>
    if rest.isEmpty && e.type == EntryType.assente then none
    else
      let dayHours := calculateDayHours (e :: rest) dateKey
      let targetMinutes := hoursToMinutes (getDailyTarget dateKey)
      let deltaMinutes := dayHours.minutes - targetMinutes
      some { minutes := deltaMinutes
             formatted := formatDeltaMinutes deltaMinutes
             isPositive := decide (0 < deltaMinutes)
             isNegative := decide (deltaMinutes < 0)
             isNeutral := deltaMinutes == 0
             hasIncomplete := dayHours.hasIncomplete }

/-- Result record of `calculateFridayExitSuggestion`. -/
structure FridaySuggestion where
  exitTime : Option String
  extraMinutes : Int
  fridayTargetMinutes : Int
  fridayDateKey : String
  hasFridayEntrata : Bool
  hasFridayComplete : Bool
deriving DecidableEq, Repr

/-- Lexicographic code-unit comparison of character lists, as JavaScript's
default string comparison. -/
def charListLe : List Char → List Char → Bool
  | [], _ => true
  | _ :: _, [] => false
  | a :: as, b :: bs =>
    if a.toNat < b.toNat then true
    else if b.toNat < a.toNat then false
    else charListLe as bs

/-- JavaScript default string ordering (by code units). -/
def jsStrLe (a b : String) : Bool := charListLe a.data b.data

/-- `Object.keys(weekEntries).sort()`: the date keys in ascending string
order.  Modelled with a stable insertion sort under the code-unit order. -/
def sortedDateKeys (weekEntries : List (String × List Entry)) : List String :=
  (weekEntries.map Prod.fst).insertionSort (fun a b => jsStrLe a b = true)

/-- The first Friday among the sorted date keys
(`sortedDates.find(dk => isFriday(parseDateISO(dk)))`). -/
def findFridayKey (weekEntries : List (String × List Entry)) : Option String :=
  (sortedDateKeys weekEntries).find? (fun dk => isFriday (parseDateISO dk))

/-- The accumulator loop of `calculateFridayExitSuggestion` (lines 345-354):
sums the deltas of the non-Friday dates that have entries, skipping any day
whose delta is incomplete. -/
def accumulatedExtraMinutes (weekEntries : List (String × List Entry))
    (fridayDateKey : String) : Int :=
  (sortedDateKeys weekEntries).foldl
    (fun acc dateKey =>
      if dateKey == fridayDateKey then acc
      else
        match weekEntries.lookup dateKey with
        | none => acc
        | some entries =>
          if entries.isEmpty then acc
          else
            match calculateDayDelta entries dateKey with
            | some delta => if delta.hasIncomplete then acc else acc + delta.minutes
            | none => acc) 0

/-- `calculateFridayExitSuggestion` (lines 336-391). -/
def calculateFridayExitSuggestion (weekEntries : List (String × List Entry)) :
    Option FridaySuggestion :=
  let sortedDates := sortedDateKeys weekEntries
  if sortedDates.isEmpty then none
  else
    match (sortedDateKeys weekEntries).find? (fun dk => isFriday (parseDateISO dk)) with
    | none => none
    | some fridayDateKey =>
      let extraMinutes := accumulatedExtraMinutes weekEntries fridayDateKey
      let fridayEntries := (weekEntries.lookup fridayDateKey).getD []
      let hasFridayEntrata := fridayEntries.any (fun e => e.type == EntryType.entrata)
      let hasFridayUscita := fridayEntries.any (fun e => e.type == EntryType.uscita)
      if isSpecialDay fridayEntries then none
      else
        let fridayTargetMinutes := hoursToMinutes FRIDAY_TARGET_HOURS
        let adjustedTarget := max 0 (fridayTargetMinutes - extraMinutes)
        let exitTime :=
          if hasFridayEntrata && !hasFridayUscita then
            (fridayEntries.find? (fun e => e.type == EntryType.entrata)).bind
              (fun entrataEntry => (parseTimeToMinutes entrataEntry.time).map
                (fun entrataMin => minutesToTime (entrataMin + adjustedTarget)))
          else none
        some { exitTime := exitTime
               extraMinutes := extraMinutes
               fridayTargetMinutes := adjustedTarget
               fridayDateKey := fridayDateKey
               hasFridayEntrata := hasFridayEntrata
               hasFridayComplete := hasFridayUscita && hasFridayEntrata }

/-! ### Spec-side formulations (for refinement comparison)

These definitions follow the spec's words, to be compared with the
source-translated functions above. -/

/-- Spec formulation of one pair's contribution to `workedMinutes`: the
positive part of `outs[i] - ins[i]`, zero for an unparseable time. -/
def pairWorked (ins outs : List String) (i : Nat) : Int :=
  match parseTimeToMinutes (ins.getD i ""), parseTimeToMinutes (outs.getD i "") with
  | some a, some b => if 0 < b - a then b - a else 0
  | _, _ => 0

/-- Spec formulation of one boundary's contribution to `breakMinutes`: the
positive part of `ins[i+1] - outs[i]`, zero for an unparseable time. -/
def boundaryBreak (ins outs : List String) (i : Nat) : Int :=
  match parseTimeToMinutes (outs.getD i ""), parseTimeToMinutes (ins.getD (i + 1) "") with
  | some a, some b => if a < b then b - a else 0
  | _, _ => 0

/-- Spec formulation of a date's contribution to the Friday predictor's
accumulated extra minutes: zero for a Friday, an empty day, a null delta or an
incomplete delta, the delta's minutes otherwise. -/
def specNonFridayContribution (dateKey : String) (entries : List Entry) : Int :=
  if isFriday (parseDateISO dateKey) then 0
  else if entries.isEmpty then 0
  else
    match calculateDayDelta entries dateKey with
    | some d => if d.hasIncomplete then 0 else d.minutes
    | none => 0

/-! ### Evaluation variants

`hoursToMinutes` on the rational config constants does not reduce inside the
kernel; these variants carry the equal integer targets so that concrete runs
of the engine can be checked by `decide`.  They are proved equal to the
source-translated functions below. -/

/-- `calculateDayDelta` with the daily target precomputed in integer minutes
(`Math.round(7.5 * 60) = 450`, `Math.round(6 * 60) = 360`). -/
def calculateDayDeltaM (entries : List Entry) (dateKey : String) : Option Delta :=
  match entries with
  | [] => none
  | e :: rest =>
    if rest.isEmpty && e.type == EntryType.assente then none
    else
      let dayHours := calculateDayHours (e :: rest) dateKey
      let targetMinutes : Int := if isFriday (parseDateISO dateKey) then 360 else 450
      let deltaMinutes := dayHours.minutes - targetMinutes
      some { minutes := deltaMinutes
             formatted := formatDeltaMinutes deltaMinutes
             isPositive := decide (0 < deltaMinutes)
             isNegative := decide (deltaMinutes < 0)
             isNeutral := deltaMinutes == 0
             hasIncomplete := dayHours.hasIncomplete }

/-- `accumulatedExtraMinutes` on top of `calculateDayDeltaM`. -/
def accumulatedExtraMinutesM (weekEntries : List (String × List Entry))
    (fridayDateKey : String) : Int :=
  (sortedDateKeys weekEntries).foldl
    (fun acc dateKey =>
      if dateKey == fridayDateKey then acc
      else
        match weekEntries.lookup dateKey with
        | none => acc
        | some entries =>
          if entries.isEmpty then acc
          else
            match calculateDayDeltaM entries dateKey with
            | some delta => if delta.hasIncomplete then acc else acc + delta.minutes
            | none => acc) 0

/-! ### Concrete fixtures -/

/-- A Tuesday-style single-pair day: 08:00-16:30. -/
def dayA : List Entry :=
  [{ type := EntryType.entrata, time := "08:00" }, { type := EntryType.uscita, time := "16:30" }]

/-- The spec's Friday-prediction scenario: Monday through Thursday of the week
of 2025-01-06 with deltas +30, +15, (incomplete, excluded), 0; Friday
2025-01-10 holds a sole 07:50 clock-in. -/
def week1 : List (String × List Entry) :=
  [("2025-01-06", [{ type := EntryType.entrata, time := "08:00" },
                   { type := EntryType.uscita, time := "16:30" }]),
   ("2025-01-07", [{ type := EntryType.entrata, time := "08:00" },
                   { type := EntryType.uscita, time := "16:15" }]),
   ("2025-01-08", [{ type := EntryType.entrata, time := "08:00" }]),
   ("2025-01-09", [{ type := EntryType.entrata, time := "08:00" },
                   { type := EntryType.uscita, time := "16:00" }]),
   ("2025-01-10", [{ type := EntryType.entrata, time := "07:50" }])]

/-- The suggestion the engine returns for `week1`. -/
def fridaySuggestion1 : FridaySuggestion :=
  { exitTime := some "13:05"
    extraMinutes := 45
    fridayTargetMinutes := 315
    fridayDateKey := "2025-01-10"
    hasFridayEntrata := true
    hasFridayComplete := false }

/-- A week with two clock-ins on Friday: the first (07:50) must drive the
suggestion. -/
def weekTwoEntrate : List (String × List Entry) :=
  [("2025-01-10", [{ type := EntryType.entrata, time := "07:50" },
                   { type := EntryType.entrata, time := "09:00" }])]

/-- A week whose Friday has a clock-out before an unmatched clock-in: no exit
time may be suggested. -/
def weekUscitaFirst : List (String × List Entry) :=
  [("2025-01-10", [{ type := EntryType.uscita, time := "12:00" },
                   { type := EntryType.entrata, time := "13:00" }])]

/-- A single-pair day of exactly 360 gross minutes (the pause threshold is a
strict inequality, so no pause applies). -/
def dayB : List Entry :=
  [{ type := EntryType.entrata, time := "08:00" }, { type := EntryType.uscita, time := "14:00" }]

/-- The spec's two-pair scenario: 08:00-12:00 and 12:20-16:10, a 20-minute
real break. -/
def dayC : List Entry :=
  [{ type := EntryType.entrata, time := "08:00" }, { type := EntryType.uscita, time := "12:00" },
   { type := EntryType.entrata, time := "12:20" }, { type := EntryType.uscita, time := "16:10" }]

/-- A week with no Friday key at all. -/
def weekNoFriday : List (String × List Entry) :=
  [("2025-01-06", [{ type := EntryType.entrata, time := "08:00" },
                   { type := EntryType.uscita, time := "16:00" }])]

/-- A week whose Friday is a sole smart-working record. -/
def weekSmartFriday : List (String × List Entry) :=
  [("2025-01-06", [{ type := EntryType.entrata, time := "08:00" },
                   { type := EntryType.uscita, time := "16:00" }]),
   ("2025-01-10", [{ type := EntryType.smart, hours := some (15 / 2) }])]

/-! ### Helper lemmas -/

lemma digitChar_isDigit (d : Nat) (h : d ≤ 9) : (Nat.digitChar d).isDigit = true := by
  interval_cases d <;> decide

lemma digitChar_toNat (d : Nat) (h : d ≤ 9) : (Nat.digitChar d).toNat = 48 + d := by
  interval_cases d <;> decide

lemma pad2_eq (n : Nat) (h : n < 100) :
    pad2 n = String.mk [Nat.digitChar (n / 10), Nat.digitChar (n % 10)] := by
  unfold pad2
  rw [if_pos h]

lemma data_of_time (h mm : Nat) (hh : h < 100) (hmm2 : mm < 100) :
    (pad2 h ++ ":" ++ pad2 mm).data
      = [Nat.digitChar (h / 10), Nat.digitChar (h % 10), ':',
         Nat.digitChar (mm / 10), Nat.digitChar (mm % 10)] := by
  rw [pad2_eq h hh, pad2_eq mm hmm2]
  simp [String.data_append]

lemma parse_format (m : Int) (h0 : 0 ≤ m) (h1 : m < 1440) :
    parseTimeToMinutes (minutesToTime m) = some m := by
  obtain ⟨n, rfl⟩ : ∃ n : Nat, m = (n : Int) := ⟨m.toNat, (Int.toNat_of_nonneg h0).symm⟩
  have hn : n < 1440 := by exact_mod_cast h1
  have hneg : ¬ ((n : Int) < 0) := by omega
  have hh : n / 60 < 100 := by omega
  have hmm : n % 60 < 100 := by omega
  have hdata : (minutesToTime (n : Int)).data
      = [Nat.digitChar (n / 60 / 10), Nat.digitChar (n / 60 % 10), ':',
         Nat.digitChar (n % 60 / 10), Nat.digitChar (n % 60 % 10)] := by
    unfold minutesToTime
    rw [if_neg hneg, Int.natAbs_ofNat]
    simpa [String.data_append] using data_of_time (n / 60) (n % 60) hh hmm
  unfold parseTimeToMinutes
  rw [hdata]
  have d1 : n / 60 / 10 ≤ 9 := by omega
  have d2 : n / 60 % 10 ≤ 9 := by omega
  have d3 : n % 60 / 10 ≤ 9 := by omega
  have d4 : n % 60 % 10 ≤ 9 := by omega
  simp only [digitChar_isDigit _ d1, digitChar_isDigit _ d2, digitChar_isDigit _ d3,
    digitChar_isDigit _ d4, digitChar_toNat _ d1, digitChar_toNat _ d2,
    digitChar_toNat _ d3, digitChar_toNat _ d4]
  have e1 : 48 + n / 60 / 10 - 48 = n / 60 / 10 := by omega
  have e2 : 48 + n / 60 % 10 - 48 = n / 60 % 10 := by omega
  have e3 : 48 + n % 60 / 10 - 48 = n % 60 / 10 := by omega
  have e4 : 48 + n % 60 % 10 - 48 = n % 60 % 10 := by omega
  rw [e1, e2, e3, e4]
  have hcomp1 : n / 60 / 10 * 10 + n / 60 % 10 = n / 60 := by omega
  have hcomp2 : n % 60 / 10 * 10 + n % 60 % 10 = n % 60 := by omega
  rw [hcomp1, hcomp2]
  have hlt : n / 60 < 24 := by omega
  have hlt2 : n % 60 < 60 := by omega
  simp [hlt, hlt2]
  omega

lemma parse_in_range (s : String) (v : Int) (hv : parseTimeToMinutes s = some v) :
    0 ≤ v ∧ v < 1440 := by
  unfold parseTimeToMinutes at hv
  split at hv
  case h_2 => exact absurd hv (by simp)
  case h_1 h1 h2 c m1 m2 heq =>
    split at hv
    case isFalse => exact absurd hv (by simp)
    case isTrue hg =>
      dsimp only at hv
      split at hv
      case isFalse => exact absurd hv (by simp)
      case isTrue hb =>
        simp only [Bool.and_eq_true, decide_eq_true_eq] at hb
        injection hv with hv
        omega

/-- C9: round-trip of the time helpers: formatting any minute value in
`[0, 1440)` and parsing it back returns the same value; and the parser only
ever returns `none` or a valid minute-of-day count (it is a total function
with a `null` sentinel, never an exception). -/
theorem time_helpers_roundtrip :
    (∀ m : Int, 0 ≤ m → m < 1440 → parseTimeToMinutes (minutesToTime m) = some m) ∧
    (∀ s : String, parseTimeToMinutes s = none ∨
       ∃ v : Int, parseTimeToMinutes s = some v ∧ 0 ≤ v ∧ v < 1440) := by
  refine ⟨parse_format, fun s => ?_⟩
  cases hv : parseTimeToMinutes s with
  | none => exact Or.inl rfl
  | some v => exact Or.inr ⟨v, rfl, parse_in_range s v hv⟩

/-- C8: the weekly balance is the worked minutes less the 2160-minute target,
with sign flags matching the sign of the difference; in particular 2160
worked minutes is neutral and 2100 is negative with minutes `-60`. -/
theorem week_balance_spec :
    (∀ m : Int,
      (calculateBalance m).minutes = m - 2160 ∧
      (calculateBalance m).isPositive = decide (2160 < m) ∧
      (calculateBalance m).isNegative = decide (m < 2160) ∧
      (calculateBalance m).isNeutral = decide (m = 2160)) ∧
    (calculateBalance 2160).isNeutral = true ∧
    (calculateBalance 2100).isNegative = true ∧
    (calculateBalance 2100).minutes = -60 := by
  refine ⟨fun m => ?_, by decide, by decide, by decide⟩
  unfold calculateBalance WEEKLY_TARGET_MINUTES
  refine ⟨by norm_num, ?_, ?_, ?_⟩
  · exact decide_eq_decide.mpr (by omega)
  · exact decide_eq_decide.mpr (by omega)
  · by_cases h : m = 2160
    · simp [h]
    · have h2 : ¬ (m - 36 * 60 = 0) := by omega
      simp [h, h2]
      omega

/-- C6: a day consisting of exactly one `smart`/`assente` entry carrying
decimal hours `q` yields net minutes `round(q * 60)` with no incompleteness
and no pause deduction or pair resolution (the pair-path fields stay absent);
an empty day yields the all-zero result.  Concretely: 7.5 smart hours credit
450 minutes and 6 absent hours credit 360. -/
theorem special_day_override :
    (∀ (e : Entry) (q : ℚ) (dateKey : String), e.hours = some q →
      e.type = EntryType.smart ∨ e.type = EntryType.assente →
      calculateDayHours [e] dateKey =
        { minutes := jsRound (q * 60), formatted := minutesToTime (jsRound (q * 60)),
          hasIncomplete := false }) ∧
    (∀ dateKey : String, calculateDayHours [] dateKey =
      { minutes := 0, formatted := "00:00", hasIncomplete := false }) ∧
    (calculateDayHours [{ type := EntryType.smart, hours := some (15 / 2) }]
      "2025-01-06").minutes = 450 ∧
    (calculateDayHours [{ type := EntryType.assente, hours := some 6 }]
      "2025-01-10").minutes = 360 := by
  refine ⟨?_, fun dateKey => rfl, ?_, ?_⟩
  · intro e q dateKey hq ht
    have hsp : isSpecialDay [e] = true := by
      rcases ht with h | h <;> simp [isSpecialDay, h]
    simp [calculateDayHours, hsp, hq]
  · have h : jsRound ((15 / 2 : ℚ) * 60) = 450 := by norm_num [jsRound]
    simp [calculateDayHours, isSpecialDay, h]
  · have h : jsRound ((6 : ℚ) * 60) = 360 := by norm_num [jsRound]
    simp [calculateDayHours, isSpecialDay, h]

/-- C1: the break policy of the pair path of `calculateDayHours`: on a Friday
no pause is ever deducted (`pauseApplied = false`); on a non-Friday with at
most one pair a flat 30-minute pause is deducted exactly when the gross
worked minutes strictly exceed 360; on a non-Friday with two or more pairs
the deduction is `max 0 (30 - breakMinutes)`.  Concretely: a 510-minute
Friday deducts nothing, the same day on a Wednesday deducts 30, a 360-minute
Wednesday deducts nothing (strict threshold), and a two-pair Wednesday with a
20-minute real break deducts 10. -/
theorem break_policy_cases :
    (∀ (entries : List Entry) (dateKey : String),
      isFriday (parseDateISO dateKey) = true → entries ≠ [] → isSpecialDay entries = false →
      (calculateDayHours entries dateKey).pauseApplied = some false) ∧
    (∀ (r : PairResult) (dateKey : String), isFriday (parseDateISO dateKey) = true →
      dayPauseMinutes r dateKey = 0) ∧
    (∀ (r : PairResult) (dateKey : String), isFriday (parseDateISO dateKey) = false →
      r.pairCount ≤ 1 →
      dayPauseMinutes r dateKey = if 360 < r.workedMinutes then 30 else 0) ∧
    (∀ (r : PairResult) (dateKey : String), isFriday (parseDateISO dateKey) = false →
      2 ≤ r.pairCount →
      dayPauseMinutes r dateKey = max 0 (30 - r.breakMinutes)) ∧
    dayPauseMinutes (calculatePairMinutes dayA) "2025-01-10" = 0 ∧
    dayPauseMinutes (calculatePairMinutes dayA) "2025-01-08" = 30 ∧
    dayPauseMinutes (calculatePairMinutes dayB) "2025-01-08" = 0 ∧
    dayPauseMinutes (calculatePairMinutes dayC) "2025-01-08" = 10 := by
  have hfr0 : ∀ (r : PairResult) (dateKey : String), isFriday (parseDateISO dateKey) = true →
      dayPauseMinutes r dateKey = 0 := by
    intro r dateKey hfri
    simp [dayPauseMinutes, hfri]
  refine ⟨?_, hfr0, ?_, ?_, by decide, by decide, by decide, by decide⟩
  · intro entries dateKey hfri hne hsp
    match entries, hne with
    | e :: rest, _ =>
      simp [calculateDayHours, hsp, hfr0 _ _ hfri]
  · intro r dateKey hfri hpc
    have h36 : (60 : Int) * PAUSE_THRESHOLD_HOURS = 360 := by norm_num [PAUSE_THRESHOLD_HOURS]
    simp only [dayPauseMinutes, shouldApplyPause, hfri, h36, Bool.false_eq_true, if_false,
      if_pos hpc, PAUSE_MINUTES]
    by_cases hw : (360 : Int) < r.workedMinutes <;> simp [hw]
  · intro r dateKey hfri hpc
    have h1 : ¬ (r.pairCount ≤ 1) := by omega
    simp only [dayPauseMinutes, hfri, Bool.false_eq_true, if_false, if_neg h1, PAUSE_MINUTES]
    split <;> omega

lemma hoursToMinutes_target (dateKey : String) :
    hoursToMinutes (getDailyTarget dateKey) =
      if isFriday (parseDateISO dateKey) then 360 else 450 := by
  unfold getDailyTarget
  by_cases h : isFriday (parseDateISO dateKey) <;>
    simp only [h, if_true, if_false, Bool.false_eq_true] <;>
    norm_num [hoursToMinutes, jsRound, FRIDAY_TARGET_HOURS, DAILY_TARGET_HOURS]

/-- C5: `calculateDayDelta` returns `null` exactly for an empty day or a sole
`assente` entry; otherwise its minutes are the day's net minutes less the
daily target (360 on a Friday, 450 otherwise), with sign flags matching.
Concretely: the 08:00-16:30 Monday nets 480 against 450, delta +30. -/
theorem day_delta_spec :
    (∀ (entries : List Entry) (dateKey : String),
      (calculateDayDelta entries dateKey = none ↔
        entries = [] ∨ ∃ e, entries = [e] ∧ e.type = EntryType.assente) ∧
      (∀ d, calculateDayDelta entries dateKey = some d →
        d.minutes = (calculateDayHours entries dateKey).minutes -
          (if isFriday (parseDateISO dateKey) then 360 else 450) ∧
        d.isPositive = decide (0 < d.minutes) ∧
        d.isNegative = decide (d.minutes < 0) ∧
        d.isNeutral = decide (d.minutes = 0))) ∧
    (calculateDayDelta dayA "2025-01-06").map Delta.minutes = some 30 ∧
    calculateDayDelta [{ type := EntryType.assente, hours := some 6 }] "2025-01-06" = none := by
  refine ⟨fun entries dateKey => ?_,
    by simp only [dayA, calculateDayDelta, hoursToMinutes_target]; decide, by decide⟩
  constructor
  · cases entries with
    | nil => simp [calculateDayDelta]
    | cons e rest =>
      simp only [calculateDayDelta]
      split
      · rename_i hc
        simp only [Bool.and_eq_true, List.isEmpty_iff, beq_iff_eq] at hc
        simp [hc.1, hc.2]
      · rename_i hc
        simp only [Bool.and_eq_true, List.isEmpty_iff, beq_iff_eq] at hc
        simp only [reduceCtorEq, false_iff, not_or]
        refine ⟨by simp, ?_⟩
        rintro ⟨e2, he2, ht2⟩
        obtain ⟨rfl, rfl⟩ := List.cons.inj he2
        exact hc ⟨rfl, ht2⟩
  · intro d hd
    cases entries with
    | nil => exact absurd hd (by simp [calculateDayDelta])
    | cons e rest =>
      simp only [calculateDayDelta] at hd
      split at hd
      · exact absurd hd (by simp)
      · injection hd with hd
        subst hd
        refine ⟨?_, rfl, rfl, ?_⟩
        · simp [hoursToMinutes_target]
        · by_cases h0 :
            (calculateDayHours (e :: rest) dateKey).minutes -
              hoursToMinutes (getDailyTarget dateKey) = 0 <;> simp [h0]

lemma foldl_add_eq_sum {α : Type} (f : Int → α → Int) (g : α → Int)
    (hf : ∀ acc a, f acc a = acc + g a) :
    ∀ (l : List α) (init : Int), l.foldl f init = init + (l.map g).sum := by
  intro l
  induction l with
  | nil => intro init; simp
  | cons a t ih =>
    intro init
    simp only [List.foldl_cons, List.map_cons, List.sum_cons, hf]
    rw [ih]
    ring

lemma worked_body (ins outs : List String) (acc : Int) (i : Nat) :
    (match parseTimeToMinutes (ins.getD i ""), parseTimeToMinutes (outs.getD i "") with
     | some entrataMinutes, some uscitaMinutes =>
       if 0 < uscitaMinutes - entrataMinutes then acc + (uscitaMinutes - entrataMinutes)
       else acc
     | _, _ => acc) = acc + pairWorked ins outs i := by
  unfold pairWorked
  rcases parseTimeToMinutes (ins.getD i "") with _ | a <;>
    rcases parseTimeToMinutes (outs.getD i "") with _ | b <;> simp
  split <;> simp

lemma break_body (ins outs : List String) (pairs : Nat) (acc : Int) (i : Nat) :
    (if i < pairs - 1 then
       match parseTimeToMinutes (outs.getD i ""), parseTimeToMinutes (ins.getD (i + 1) "") with
       | some exitMin, some nextEntryMin =>
         if exitMin < nextEntryMin then acc + (nextEntryMin - exitMin) else acc
       | _, _ => acc
     else acc) = acc + (if i < pairs - 1 then boundaryBreak ins outs i else 0) := by
  split
  · unfold boundaryBreak
    rcases parseTimeToMinutes (outs.getD i "") with _ | a <;>
      rcases parseTimeToMinutes (ins.getD (i + 1) "") with _ | b <;> simp
    split <;> simp
  · simp

lemma range_sum_gate (g : Nat → Int) (n : Nat) :
    ((List.range n).map (fun i => if i < n - 1 then g i else 0)).sum
      = ((List.range (n - 1)).map g).sum := by
  cases n with
  | zero => simp
  | succ m =>
    rw [List.range_succ]
    simp only [List.map_append, List.sum_append, List.map_cons, List.map_nil, Nat.succ_sub_one]
    have h1 : (List.range m).map (fun i => if i < m then g i else 0)
        = (List.range m).map g := by
      apply List.map_congr_left
      intro a ha
      simp [List.mem_range.mp ha]
    rw [h1]
    simp

/-- C2: the pair resolver: `pairCount` is the minimum of the clock-in and
clock-out counts (order-preserving partition); `hasIncomplete` holds exactly
when clock-ins outnumber clock-outs; `workedMinutes` is the sum over pairs of
the positive worked differences; `breakMinutes` is the sum over the inner
boundaries of the positive gaps; an unparseable time contributes zero without
aborting the rest. -/
theorem pair_resolver_spec :
    ∀ entries : List Entry,
      (calculatePairMinutes entries).pairCount
        = min (entrateTimes entries).length (usciteTimes entries).length ∧
      (calculatePairMinutes entries).hasIncomplete
        = decide ((usciteTimes entries).length < (entrateTimes entries).length) ∧
      (calculatePairMinutes entries).workedMinutes
        = ((List.range (calculatePairMinutes entries).pairCount).map
            (pairWorked (entrateTimes entries) (usciteTimes entries))).sum ∧
      (calculatePairMinutes entries).breakMinutes
        = ((List.range ((calculatePairMinutes entries).pairCount - 1)).map
            (boundaryBreak (entrateTimes entries) (usciteTimes entries))).sum ∧
      calculatePairMinutes dayC
        = { workedMinutes := 470, hasIncomplete := false, pairCount := 2, breakMinutes := 20 } := by
  intro entries
  refine ⟨rfl, rfl, ?_, ?_, by decide⟩
  · show (List.range _).foldl _ 0
        = ((List.range _).map (pairWorked (entrateTimes entries) (usciteTimes entries))).sum
    rw [foldl_add_eq_sum _ (pairWorked (entrateTimes entries) (usciteTimes entries))
      (fun acc i => worked_body (entrateTimes entries) (usciteTimes entries) acc i)]
    simp
    rfl
  · show (List.range _).foldl _ 0
        = ((List.range _).map (boundaryBreak (entrateTimes entries) (usciteTimes entries))).sum
    rw [foldl_add_eq_sum _
      (fun i => if i < min (entrateTimes entries).length (usciteTimes entries).length - 1
        then boundaryBreak (entrateTimes entries) (usciteTimes entries) i else 0)
      (fun acc i => break_body (entrateTimes entries) (usciteTimes entries) _ acc i)]
    rw [range_sum_gate]
    simp
    rfl

lemma hoursToMinutes_fridayTarget : hoursToMinutes FRIDAY_TARGET_HOURS = 360 := by
  norm_num [hoursToMinutes, jsRound, FRIDAY_TARGET_HOURS]

lemma dayDelta_eq_M (entries : List Entry) (dateKey : String) :
    calculateDayDelta entries dateKey = calculateDayDeltaM entries dateKey := by
  cases entries with
  | nil => rfl
  | cons e rest =>
    simp only [calculateDayDelta, calculateDayDeltaM, hoursToMinutes_target]

lemma accExtra_eq_M (w : List (String × List Entry)) (fk : String) :
    accumulatedExtraMinutes w fk = accumulatedExtraMinutesM w fk := by
  unfold accumulatedExtraMinutes accumulatedExtraMinutesM
  simp only [dayDelta_eq_M]

lemma sortedKeys_perm (w : List (String × List Entry)) :
    (sortedDateKeys w).Perm (w.map Prod.fst) :=
  List.perm_insertionSort _ _

lemma sortedKeys_nonempty (w : List (String × List Entry)) (fk : String)
    (hfk : findFridayKey w = some fk) : (sortedDateKeys w).isEmpty = false := by
  unfold findFridayKey at hfk
  cases hl : sortedDateKeys w with
  | nil => rw [hl] at hfk; simp at hfk
  | cons a t => rfl

lemma fridayKey_friday (w : List (String × List Entry)) (fk : String)
    (hfk : findFridayKey w = some fk) : isFriday (parseDateISO fk) = true := by
  unfold findFridayKey at hfk
  simpa using List.find?_some hfk

lemma fridayKey_mem (w : List (String × List Entry)) (fk : String)
    (hfk : findFridayKey w = some fk) : fk ∈ w.map Prod.fst := by
  unfold findFridayKey at hfk
  exact (List.Perm.mem_iff (sortedKeys_perm w)).mp (List.mem_of_find?_eq_some hfk)

lemma fridayExit_none_noFriday (w : List (String × List Entry))
    (hfk : findFridayKey w = none) : calculateFridayExitSuggestion w = none := by
  unfold findFridayKey at hfk
  by_cases he : (sortedDateKeys w).isEmpty <;>
    simp [calculateFridayExitSuggestion, he, hfk]

lemma fridayExit_none_special (w : List (String × List Entry)) (fk : String)
    (hfk : findFridayKey w = some fk)
    (hsp : isSpecialDay ((w.lookup fk).getD []) = true) :
    calculateFridayExitSuggestion w = none := by
  have hne := sortedKeys_nonempty w fk hfk
  unfold findFridayKey at hfk
  unfold calculateFridayExitSuggestion
  simp [hne, hfk, hsp]

/-- The success path of `calculateFridayExitSuggestion`, characterized: if a
Friday key is found and its entries are not a sole special record, the result
is the record built from the accumulated extra minutes and the Friday
entries. -/
lemma fridayExit_eq (w : List (String × List Entry)) (fk : String)
    (hfk : findFridayKey w = some fk)
    (hsp : isSpecialDay ((w.lookup fk).getD []) = false) :
    calculateFridayExitSuggestion w = some
      { exitTime :=
          if ((w.lookup fk).getD []).any (fun e => e.type == EntryType.entrata)
              && !((w.lookup fk).getD []).any (fun e => e.type == EntryType.uscita) then
            (((w.lookup fk).getD []).find? (fun e => e.type == EntryType.entrata)).bind
              (fun entrataEntry => (parseTimeToMinutes entrataEntry.time).map
                (fun entrataMin => minutesToTime (entrataMin +
                  max 0 (hoursToMinutes FRIDAY_TARGET_HOURS - accumulatedExtraMinutes w fk))))
          else none
        extraMinutes := accumulatedExtraMinutes w fk
        fridayTargetMinutes :=
          max 0 (hoursToMinutes FRIDAY_TARGET_HOURS - accumulatedExtraMinutes w fk)
        fridayDateKey := fk
        hasFridayEntrata := ((w.lookup fk).getD []).any (fun e => e.type == EntryType.entrata)
        hasFridayComplete := ((w.lookup fk).getD []).any (fun e => e.type == EntryType.uscita)
          && ((w.lookup fk).getD []).any (fun e => e.type == EntryType.entrata) } := by
  have hne := sortedKeys_nonempty w fk hfk
  unfold findFridayKey at hfk
  unfold calculateFridayExitSuggestion
  simp [hne, hfk, hsp]

/-- One sorted key's contribution inside `accumulatedExtraMinutes`, as a
function of the key. -/
def lookupContribution (w : List (String × List Entry)) (fk : String) (dk : String) : Int :=
  if dk == fk then 0
  else
    match w.lookup dk with
    | none => 0
    | some entries =>
      if entries.isEmpty then 0
      else
        match calculateDayDelta entries dk with
        | some delta => if delta.hasIncomplete then 0 else delta.minutes
        | none => 0

lemma accExtra_body (w : List (String × List Entry)) (fk : String) (acc : Int) (dk : String) :
    (if dk == fk then acc
     else
       match w.lookup dk with
       | none => acc
       | some entries =>
         if entries.isEmpty then acc
         else
           match calculateDayDelta entries dk with
           | some delta => if delta.hasIncomplete then acc else acc + delta.minutes
           | none => acc)
    = acc + lookupContribution w fk dk := by
  unfold lookupContribution
  split
  · simp
  · rcases w.lookup dk with _ | entries
    · simp
    · simp only
      split
      · simp
      · rcases calculateDayDelta entries dk with _ | delta
        · simp
        · simp only
          split <;> simp

lemma accExtra_eq_sum (w : List (String × List Entry)) (fk : String) :
    accumulatedExtraMinutes w fk
      = ((sortedDateKeys w).map (lookupContribution w fk)).sum := by
  unfold accumulatedExtraMinutes
  rw [foldl_add_eq_sum _ (lookupContribution w fk) (fun acc dk => accExtra_body w fk acc dk)]
  simp

lemma lookup_self {β : Type} (w : List (String × β)) (hnd : (w.map Prod.fst).Nodup)
    (p : String × β) (hp : p ∈ w) : w.lookup p.1 = some p.2 := by
  induction w with
  | nil => cases hp
  | cons q t ih =>
    simp only [List.map_cons, List.nodup_cons] at hnd
    rcases List.mem_cons.mp hp with rfl | hp2
    · simp [List.lookup]
    · have hne : (p.1 == q.1) = false := by
        refine beq_false_of_ne ?_
        intro h
        exact hnd.1 (h ▸ List.mem_map_of_mem Prod.fst hp2)
      rw [List.lookup, hne]
      exact ih hnd.2 hp2

/-- C4: the Friday predictor returns `null` when no date key is a Friday and
when the Friday holds a sole `smart`/`assente` record; otherwise (for a
well-formed week: unique date keys, a single Friday among them) the
accumulated extra minutes are the sum of the day deltas over the non-Friday
dates with entries, excluding days whose delta is incomplete.  Concretely: a
week without a Friday and a week with a smart-working Friday both return
`none`, and the scenario week accumulates +30 +15 +0 = 45 (the incomplete
Wednesday excluded), matching the sum of the per-day contributions. -/
theorem friday_predictor_null_and_accumulation :
    (∀ w : List (String × List Entry),
      (∀ k ∈ w.map Prod.fst, isFriday (parseDateISO k) = false) →
      calculateFridayExitSuggestion w = none) ∧
    (∀ (w : List (String × List Entry)) (fk : String) (e : Entry),
      findFridayKey w = some fk → (w.lookup fk).getD [] = [e] →
      e.type = EntryType.smart ∨ e.type = EntryType.assente →
      calculateFridayExitSuggestion w = none) ∧
    (∀ (w : List (String × List Entry)) (fk : String) (s : FridaySuggestion),
      (w.map Prod.fst).Nodup →
      findFridayKey w = some fk →
      (∀ k ∈ w.map Prod.fst, isFriday (parseDateISO k) = true → k = fk) →
      calculateFridayExitSuggestion w = some s →
      s.extraMinutes = (w.map (fun p => specNonFridayContribution p.1 p.2)).sum) ∧
    calculateFridayExitSuggestion weekNoFriday = none ∧
    calculateFridayExitSuggestion weekSmartFriday = none ∧
    (calculateFridayExitSuggestion week1).map FridaySuggestion.extraMinutes = some 45 ∧
    (week1.map (fun p => specNonFridayContribution p.1 p.2)).sum = 45 := by
  refine ⟨?_, ?_, ?_, by decide, by decide, ?_, ?_⟩
  · intro w hk
    apply fridayExit_none_noFriday
    unfold findFridayKey
    rw [List.find?_eq_none]
    intro x hx
    have hxm : x ∈ w.map Prod.fst := (List.Perm.mem_iff (sortedKeys_perm w)).mp hx
    simp [hk x hxm]
  · intro w fk e hfk hfe ht
    apply fridayExit_none_special w fk hfk
    rw [hfe]
    rcases ht with h | h <;> simp [isSpecialDay, h]
  · intro w fk s hnd hfk huniq hs
    by_cases hsp : isSpecialDay ((w.lookup fk).getD []) = true
    · exact absurd (fridayExit_none_special w fk hfk hsp ▸ hs) (by simp)
    · rw [fridayExit_eq w fk hfk (by simpa using hsp)] at hs
      injection hs with hs
      subst hs
      show accumulatedExtraMinutes w fk = _
      rw [accExtra_eq_sum]
      rw [List.Perm.sum_eq (List.Perm.map (lookupContribution w fk) (sortedKeys_perm w))]
      rw [List.map_map]
      congr 1
      apply List.map_congr_left
      intro p hp
      show lookupContribution w fk p.1 = specNonFridayContribution p.1 p.2
      unfold lookupContribution specNonFridayContribution
      by_cases hq : p.1 = fk
      · have hfri : isFriday (parseDateISO fk) = true := fridayKey_friday w fk hfk
        simp [hq, hfri]
      · have hfri : isFriday (parseDateISO p.1) = false := by
          by_contra hc
          exact hq (huniq p.1 (List.mem_map_of_mem Prod.fst hp) (by simpa using hc))
        rw [lookup_self w hnd p hp]
        simp [hq, hfri]
  · have hfk : findFridayKey week1 = some "2025-01-10" := by
      unfold findFridayKey
      decide
    have hsp : isSpecialDay ((week1.lookup "2025-01-10").getD []) = false := by decide
    rw [fridayExit_eq week1 "2025-01-10" hfk hsp, accExtra_eq_M]
    decide
  · simp only [specNonFridayContribution, dayDelta_eq_M]
    decide

lemma find_entrata_any {fe : List Entry} {e : Entry}
    (hf : fe.find? (fun x => x.type == EntryType.entrata) = some e) :
    fe.any (fun x => x.type == EntryType.entrata) = true := by
  rw [List.any_eq_true]
  refine ⟨e, List.mem_of_find?_eq_some hf, ?_⟩
  simpa using List.find?_some hf

lemma friday_some_not_special (w : List (String × List Entry)) (fk : String)
    (s : FridaySuggestion) (hfk : findFridayKey w = some fk)
    (hs : calculateFridayExitSuggestion w = some s) :
    isSpecialDay ((w.lookup fk).getD []) = false := by
  by_cases hsp : isSpecialDay ((w.lookup fk).getD []) = true
  · exact absurd (fridayExit_none_special w fk hfk hsp ▸ hs) (by simp)
  · simpa using hsp

lemma friday_some_findKey (w : List (String × List Entry)) (s : FridaySuggestion)
    (hs : calculateFridayExitSuggestion w = some s) :
    findFridayKey w = some s.fridayDateKey := by
  cases hfk : findFridayKey w with
  | none => exact absurd (fridayExit_none_noFriday w hfk ▸ hs) (by simp)
  | some fk =>
    have hsp := friday_some_not_special w fk s hfk hs
    rw [fridayExit_eq w fk hfk hsp] at hs
    injection hs with hs
    subst hs
    rfl

/-- C3: whenever the Friday predictor returns a suggestion, its adjusted
target is `max 0 (360 - extraMinutes)`; the exit time is the Friday clock-in
time plus the adjusted target when Friday has an open clock-in and no
clock-out, and `null` when Friday has no clock-in or already has a clock-out;
the spec's scenario week (Mon-Thu deltas +45 with one incomplete day
excluded, Friday 07:50 clock-in only) yields target 315 and exit 13:05. -/
theorem friday_predictor_formulas :
    (∀ (w : List (String × List Entry)) (s : FridaySuggestion),
      calculateFridayExitSuggestion w = some s →
      s.fridayTargetMinutes = max 0 (360 - s.extraMinutes)) ∧
    (∀ (w : List (String × List Entry)) (s : FridaySuggestion) (e : Entry) (t : Int),
      calculateFridayExitSuggestion w = some s →
      ((w.lookup s.fridayDateKey).getD []).any (fun x => x.type == EntryType.uscita) = false →
      ((w.lookup s.fridayDateKey).getD []).find? (fun x => x.type == EntryType.entrata) = some e →
      parseTimeToMinutes e.time = some t →
      s.exitTime = some (minutesToTime (t + s.fridayTargetMinutes))) ∧
    (∀ (w : List (String × List Entry)) (s : FridaySuggestion),
      calculateFridayExitSuggestion w = some s →
      (((w.lookup s.fridayDateKey).getD []).any (fun x => x.type == EntryType.entrata) = false ∨
       ((w.lookup s.fridayDateKey).getD []).any (fun x => x.type == EntryType.uscita) = true) →
      s.exitTime = none) ∧
    calculateFridayExitSuggestion week1 = some fridaySuggestion1 := by
  refine ⟨?_, ?_, ?_, ?_⟩
  · intro w s hs
    have hfk := friday_some_findKey w s hs
    have hsp := friday_some_not_special w s.fridayDateKey s hfk hs
    rw [fridayExit_eq w s.fridayDateKey hfk hsp] at hs
    injection hs with hs
    rw [← hs, hoursToMinutes_fridayTarget]
  · intro w s e t hs hu hf hp
    have hfk := friday_some_findKey w s hs
    have hsp := friday_some_not_special w s.fridayDateKey s hfk hs
    rw [fridayExit_eq w s.fridayDateKey hfk hsp] at hs
    injection hs with hs
    rw [← hs]
    simp [find_entrata_any hf, hu, hf, hp]
  · intro w s hs hor
    have hfk := friday_some_findKey w s hs
    have hsp := friday_some_not_special w s.fridayDateKey s hfk hs
    rw [fridayExit_eq w s.fridayDateKey hfk hsp] at hs
    injection hs with hs
    rw [← hs]
    rcases hor with h | h <;> simp [h]
  · have hfk : findFridayKey week1 = some "2025-01-10" := by
      unfold findFridayKey
      decide
    have hsp : isSpecialDay ((week1.lookup "2025-01-10").getD []) = false := by decide
    rw [fridayExit_eq week1 "2025-01-10" hfk hsp, accExtra_eq_M, hoursToMinutes_fridayTarget]
    decide

/-- C10: the Friday predictor's exit time is driven by the first clock-in of
the Friday list (`find?` in list order ignores later clock-ins), and is
`null` whenever the Friday list contains any clock-out, even with an
unmatched clock-in elsewhere in the list; witnessed concretely by a Friday
with two clock-ins (07:50 wins) and by a Friday with a clock-out before an
unmatched clock-in (no suggestion). -/
theorem friday_first_entrata_rule :
    (∀ (w : List (String × List Entry)) (s : FridaySuggestion),
      calculateFridayExitSuggestion w = some s →
      (((w.lookup s.fridayDateKey).getD []).any (fun x => x.type == EntryType.uscita) = true →
        s.exitTime = none) ∧
      (((w.lookup s.fridayDateKey).getD []).any (fun x => x.type == EntryType.uscita) = false →
        s.exitTime = (((w.lookup s.fridayDateKey).getD []).find?
            (fun x => x.type == EntryType.entrata)).bind
          (fun e => (parseTimeToMinutes e.time).map
            (fun t => minutesToTime (t + s.fridayTargetMinutes))))) ∧
    (calculateFridayExitSuggestion weekTwoEntrate).map FridaySuggestion.exitTime
      = some (some "13:50") ∧
    (calculateFridayExitSuggestion weekUscitaFirst).map FridaySuggestion.exitTime
      = some none := by
  refine ⟨?_, ?_, ?_⟩
  · intro w s hs
    have hfk := friday_some_findKey w s hs
    have hsp := friday_some_not_special w s.fridayDateKey s hfk hs
    have heq := fridayExit_eq w s.fridayDateKey hfk hsp
    rw [heq] at hs
    injection hs with hs
    constructor
    · intro hu
      rw [← hs]
      simp [hu]
    · intro hu
      cases hf : ((w.lookup s.fridayDateKey).getD []).find?
          (fun x => x.type == EntryType.entrata) with
      | none =>
        have hany : ((w.lookup s.fridayDateKey).getD []).any
            (fun x => x.type == EntryType.entrata) = false := by
          rw [List.any_eq_false]
          exact List.find?_eq_none.mp hf
        rw [← hs]
        simp [hany, hf]
      | some e =>
        have hany := find_entrata_any hf
        rw [← hs]
        simp [hany, hu, hf]
  · have hfk : findFridayKey weekTwoEntrate = some "2025-01-10" := by
      unfold findFridayKey
      decide
    have hsp : isSpecialDay ((weekTwoEntrate.lookup "2025-01-10").getD []) = false := by decide
    rw [fridayExit_eq weekTwoEntrate "2025-01-10" hfk hsp, accExtra_eq_M,
      hoursToMinutes_fridayTarget]
    decide
  · have hfk : findFridayKey weekUscitaFirst = some "2025-01-10" := by
      unfold findFridayKey
      decide
    have hsp : isSpecialDay ((weekUscitaFirst.lookup "2025-01-10").getD []) = false := by decide
    rw [fridayExit_eq weekUscitaFirst "2025-01-10" hfk hsp, accExtra_eq_M,
      hoursToMinutes_fridayTarget]
    decide

/-- C7: totality of the engine: every accounting operation returns a value
for every input (empty, partial or complete entry lists, any integers) — in
this embedding each operation is a total function, mirroring the source,
which never throws on well-formed input; and a pair or boundary with an
unparseable time contributes zero to the sums instead of aborting the
computation. -/
theorem engine_totality :
    (∀ (entries : List Entry) (dateKey : String), ∃ r, calculateDayHours entries dateKey = r) ∧
    (∀ entries : List Entry, ∃ r, calculatePairMinutes entries = r) ∧
    (∀ (entries : List Entry) (dateKey : String), ∃ r, calculateDayDelta entries dateKey = r) ∧
    (∀ w : List (String × List Entry), ∃ r, calculateWeekTotal w = r) ∧
    (∀ m : Int, ∃ r, calculateBalance m = r) ∧
    (∀ m : Int, ∃ r, calculateRemaining m = r) ∧
    (∀ w : List (String × List Entry), ∃ r, calculateFridayExitSuggestion w = r) ∧
    (∀ (ins outs : List String) (i : Nat),
      parseTimeToMinutes (ins.getD i "") = none ∨ parseTimeToMinutes (outs.getD i "") = none →
      pairWorked ins outs i = 0) ∧
    (∀ (ins outs : List String) (i : Nat),
      parseTimeToMinutes (outs.getD i "") = none ∨
        parseTimeToMinutes (ins.getD (i + 1) "") = none →
      boundaryBreak ins outs i = 0) := by
  refine ⟨fun e dk => ⟨_, rfl⟩, fun e => ⟨_, rfl⟩, fun e dk => ⟨_, rfl⟩, fun w => ⟨_, rfl⟩,
    fun m => ⟨_, rfl⟩, fun m => ⟨_, rfl⟩, fun w => ⟨_, rfl⟩, ?_, ?_⟩
  · intro ins outs i h
    unfold pairWorked
    rcases hi : parseTimeToMinutes (ins.getD i "") with _ | a <;>
      rcases ho : parseTimeToMinutes (outs.getD i "") with _ | b <;> simp_all
  · intro ins outs i h
    unfold boundaryBreak
    rcases ho : parseTimeToMinutes (outs.getD i "") with _ | a <;>
      rcases hi : parseTimeToMinutes (ins.getD (i + 1) "") with _ | b <;> simp_all

end AttendanceEngine
